import Mathlib

/-!
# Verification of the healthcare charges / claims analysis script

Shallow embedding of `data_analysis.py`. Numeric cell values are modelled
as exact rationals (`ℚ`); pandas dataframes appear at two levels:

* a typed level (`PolicyRecord`, `ClaimRecord`) for the aggregate
  computations, after the loader has dropped incomplete rows;
* a raw level (`Table`: a header list plus rows of optional cells) for the
  loading / validation / row-dropping steps, where cells may be missing
  (pandas `NaN`).

Aggregations mirror the pandas expressions of the script: filters become
`List.filter`, `groupby(...).mean()` / `.count()` become per-key folds over
the list of rows, `Series.corr` becomes the exact Pearson data
(`corrRep`), and the `f"{...:,.2f}"`-style format strings become the
decimal printers below.
-/

/-- `categorize_bmi` from the script: thresholds 18.5, 25, 30,
inclusive-low / exclusive-high. -/
def categorize_bmi (bmi : ℚ) : String :=
  if bmi < 18.5 then "Underweight"
  else if bmi < 25 then "Normal"
  else if bmi < 30 then "Overweight"
  else "Obese"

/-- One row of `insurance.csv` after `dropna()`: the seven required
columns, numeric cells as exact rationals. -/
structure PolicyRecord where
  age : ℚ
  sex : String
  bmi : ℚ
  children : ℚ
  smoker : String
  region : String
  charges : ℚ
deriving DecidableEq

/-- One row of `claim_data.csv` after
`dropna(subset=['Insurance Type', 'Claim Status', 'Billed Amount'])`,
restricted to the four columns the analysis reads. The dropna subset
does not protect `Claim ID`, so that cell can still be missing (`none`,
pandas NaN); the three key fields are guaranteed present. -/
structure ClaimRecord where
  claim_id : Option String
  insurance_type : String
  claim_status : String
  billed_amount : ℚ
deriving DecidableEq

/-- First-occurrence deduplication with an accumulator of already seen
keys; `uniq l = uniqAux [] l` lists the distinct values of `l` in order of
first appearance (the index of a pandas groupby, up to ordering). -/
def uniqAux (seen : List String) : List String → List String
  | [] => []
  | x :: xs => if x ∈ seen then uniqAux seen xs else x :: uniqAux (x :: seen) xs

/-- The distinct values of a list of keys, first occurrence first. -/
def uniq (l : List String) : List String :=
  uniqAux [] l

/-- The rows of `rs` whose `key` equals `g` (one pandas group). -/
def groupRows (key : α → String) (g : String) (rs : List α) : List α :=
  rs.filter (fun r => key r == g)

/-- `df.groupby(group)[value].mean()`: each distinct key present in the
data mapped to the arithmetic mean of `val` over its group. Groups with
zero rows produce no entry. -/
def meanByGroup (key : α → String) (val : α → ℚ) (rs : List α) : List (String × ℚ) :=
  (uniq (rs.map key)).map
    (fun g => (g, ((groupRows key g rs).map val).sum / ((groupRows key g rs).length : ℚ)))

/-- The allowed insurance types of analysis D. -/
def allowedClaimTypes : List String := ["Commercial", "Medicare"]

/-- `df_claims[df_claims['Insurance Type'].isin(allowed)]`. -/
def filteredClaims (allowed : List String) (rs : List ClaimRecord) : List ClaimRecord :=
  rs.filter (fun r => allowed.contains r.insurance_type)

/-- `total_by_type = df_filtered.groupby('Insurance Type')['Claim ID'].count()`:
pandas `count()` counts the non-null `Claim ID` cells of the type's
rows, not the rows themselves — `Claim ID` is not in the dropna subset,
so rows with a missing id are excluded from the count. -/
def totalByType (allowed : List String) (rs : List ClaimRecord) (t : String) : ℕ :=
  ((groupRows (fun r => r.insurance_type) t (filteredClaims allowed rs)).filter
    (fun r => r.claim_id.isSome)).length

/-- `denied_by_type`: the same non-null `Claim ID` count over the
filtered rows of type `t` whose claim status is `"Denied"`. -/
def deniedByType (allowed : List String) (rs : List ClaimRecord) (t : String) : ℕ :=
  ((groupRows (fun r => r.insurance_type) t (filteredClaims allowed rs)).filter
    (fun r => r.claim_status == "Denied" && r.claim_id.isSome)).length

/-- `(denied_by_type / total_by_type * 100).fillna(0)`: one entry per
insurance type present in the filtered claims. A type with zero counted
denied rows has no entry in `denied_by_type`; the aligned division
yields NaN there and `fillna(0)` maps it to 0, which over `ℚ` coincides
with `0 / total * 100`. A type all of whose rows lack a claim id has
count 0 in both series; pandas' 0/0 is NaN and `fillna(0)` again gives
0, which coincides with `ℚ`'s 0/0 = 0 (the denied count is bounded by
the total count, so denied > 0 with total = 0 cannot occur). -/
def denialRateByType (allowed : List String) (rs : List ClaimRecord) : List (String × ℚ) :=
  (uniq ((filteredClaims allowed rs).map (fun r => r.insurance_type))).map
    (fun t => (t, (deniedByType allowed rs t : ℚ) / (totalByType allowed rs t : ℚ) * 100))

/-- `df_claims['Denied'] = (df_claims['Claim Status'] == 'Denied').astype(int)`. -/
def denied01 (r : ClaimRecord) : ℚ :=
  if r.claim_status = "Denied" then 1 else 0

/-- Rows with `numf r > threshold` (the `high_billed` mask). -/
def highBucket (numf : α → ℚ) (threshold : ℚ) (rs : List α) : List α :=
  rs.filter (fun r => decide (threshold < numf r))

/-- Rows with `numf r <= threshold` (the `~high_billed` mask; missing
values were dropped before this step, so the complement is exactly `≤`). -/
def lowBucket (numf : α → ℚ) (threshold : ℚ) (rs : List α) : List α :=
  rs.filter (fun r => !(decide (threshold < numf r)))

/-- `bucket['Denied'].mean() * 100`: percentage of rows of the bucket
satisfying `boolf`; the pandas mean of an empty selection is NaN,
modelled as `none`. -/
def bucketRate (boolf : α → Bool) (b : List α) : Option ℚ :=
  if b.isEmpty then none
  else some (((b.filter boolf).length : ℚ) / (b.length : ℚ) * 100)

/-- Analysis E's threshold split: the denial percentage among rows above
the threshold and among rows at or below it. -/
def thresholdSplitRate (numf : α → ℚ) (threshold : ℚ) (boolf : α → Bool) (rs : List α) :
    Option ℚ × Option ℚ :=
  (bucketRate boolf (highBucket numf threshold rs),
   bucketRate boolf (lowBucket numf threshold rs))

/-- Sum of `f` over a list of rows (a pandas column sum). -/
def lsum (f : α → ℚ) (l : List α) : ℚ :=
  (l.map f).sum

/-- Scaled second moment `n·Σ(f·g) − (Σf)(Σg)`. `scatter f f l` is
`n·(n−1)` times the sample variance of column `f`, and
`scatter f g l / √(scatter f f l · scatter g g l)` is the Pearson
correlation `Series.corr` computes. -/
def scatter (f g : α → ℚ) (l : List α) : ℚ :=
  (l.length : ℚ) * lsum (fun a => f a * g a) l - lsum f l * lsum g l

/-- Exact representation of `df['Denied'].corr(df['Billed Amount'])`:
`none` models the NaN pandas returns when either column has zero
variance (including fewer than two rows); otherwise
`some (Sxy, Sxx·Syy)` represents the coefficient `Sxy / √(Sxx·Syy)`,
which the pair determines uniquely. -/
def corrRep (f g : α → ℚ) (l : List α) : Option (ℚ × ℚ) :=
  if scatter f f l = 0 ∨ scatter g g l = 0 then none
  else some (scatter f g l, scatter f f l * scatter g g l)

/-- Round a rational to the nearest integer, ties to even — the rounding
Python's fixed-point float formatting applies. -/
def roundHalfEven (x : ℚ) : ℤ :=
  let f := Int.floor x
  let r := x - (f : ℚ)
  if r < 1/2 then f
  else if 1/2 < r then f + 1
  else if f % 2 = 0 then f else f + 1

/-- `|q|` scaled by `10^d` and rounded: the nonnegative integer whose
digits the `.{d}f` format prints. -/
def scaled (d : ℕ) (q : ℚ) : ℕ :=
  (roundHalfEven (|q| * (10 : ℚ) ^ d)).toNat

/-- Decimal digits of `n`, least significant first (`[]` for 0). -/
def natDigitsAux : ℕ → List Char
  | 0 => []
  | n + 1 => Nat.digitChar ((n + 1) % 10) :: natDigitsAux ((n + 1) / 10)
  termination_by n => n
  decreasing_by exact Nat.div_lt_self (Nat.succ_pos n) (by norm_num)

/-- Decimal digits of `n`, most significant first, `"0"` for 0 —
the integer part a Python format string prints. -/
def natDigits (n : ℕ) : List Char :=
  if n = 0 then ['0'] else (natDigitsAux n).reverse

/-- Integer-part digits of the `.{d}f` rendering of `|q|`. -/
def intDigits (d : ℕ) (q : ℚ) : List Char :=
  natDigits (scaled d q / 10 ^ d)

/-- The `d` fractional digits of the `.{d}f` rendering of `|q|`, most
significant first, zero-padded to exactly `d` characters. -/
def fracDigitsOf (d : ℕ) (q : ℚ) : List Char :=
  (List.range d).map (fun i => Nat.digitChar (scaled d q / 10 ^ (d - 1 - i) % 10))

/-- Chunks of three characters, in order: applied to a reversed digit
string it yields the comma groups of Python's `,` format, least
significant group first. -/
def chunk3 : List Char → List (List Char)
  | [] => []
  | [a] => [[a]]
  | [a, b] => [[a, b]]
  | a :: b :: c :: rest => [a, b, c] :: chunk3 rest

/-- Concatenate groups with `','` between consecutive groups. -/
def joinComma : List (List Char) → List Char
  | [] => []
  | [g] => g
  | g :: gs => g ++ ',' :: joinComma gs

/-- Insert thousands separators: group `cs` in threes from the right and
join with commas. -/
def groupComma (cs : List Char) : List Char :=
  joinComma (((chunk3 cs.reverse).reverse).map List.reverse)

/-- Sign prefix of a fixed-point rendering. -/
def signStr (q : ℚ) : String :=
  if q < 0 then "-" else ""

/-- Python `format(q, '.{d}f')`. -/
def fmtFixed (d : ℕ) (q : ℚ) : String :=
  signStr q ++ String.mk (intDigits d q) ++ "." ++ String.mk (fracDigitsOf d q)

/-- Python `format(q, ',.{d}f')`. -/
def fmtFixedComma (d : ℕ) (q : ℚ) : String :=
  signStr q ++ String.mk (groupComma (intDigits d q)) ++ "." ++ String.mk (fracDigitsOf d q)

/-- Currency rendering `f"${x:,.2f}"` of the report lines. -/
def fmtCurrency (q : ℚ) : String :=
  "$" ++ fmtFixedComma 2 q

/-- Percentage rendering `f"{x:.2f}%"` of the report lines. -/
def fmtPercent (q : ℚ) : String :=
  fmtFixed 2 q ++ "%"

/-- Correlation rendering `f"{x:.4f}"` of the report line E. -/
def fmtCorr (q : ℚ) : String :=
  fmtFixed 4 q

/-- A raw pandas dataframe: named columns and rows of optional cells
(`none` is `NaN`). Every row is aligned with `headers`. -/
structure Table where
  headers : List String
  rows : List (List (Option String))
deriving DecidableEq

/-- A row with no missing value in any column (the rows `df.dropna()`
keeps). -/
def rowComplete (r : List (Option String)) : Bool :=
  r.all Option.isSome

/-- `df.dropna()`: drop every row with a missing value in any column. -/
def dropnaAll (t : Table) : Table :=
  ⟨t.headers, t.rows.filter rowComplete⟩

/-- The cell of row `r` (a row of table `t`) in column `c`: `none` when
the cell is missing or the column does not exist. -/
def cellAt (t : Table) (r : List (Option String)) (c : String) : Option String :=
  r.getD (t.headers.indexOf c) none

/-- `df.dropna(subset=cols)`: drop the rows with a missing value in one
of `cols` (pandas raises if a column of `cols` is absent; callers check
first — see `prepClaims`). -/
def dropnaSubset (t : Table) (cols : List String) : Table :=
  ⟨t.headers, t.rows.filter (fun r => cols.all (fun c => (cellAt t r c).isSome))⟩

/-- The seven columns `main` requires of `insurance.csv`. -/
def requiredPolicyCols : List String :=
  ["age", "sex", "bmi", "children", "smoker", "region", "charges"]

/-- The fifteen columns `analyze_claim_data` expects of `claim_data.csv`. -/
def expectedClaimCols : List String :=
  ["Claim ID", "Provider ID", "Patient ID", "Date of Service", "Billed Amount",
   "Procedure Code", "Diagnosis Code", "Allowed Amount", "Paid Amount",
   "Insurance Type", "Claim Status", "Reason Code", "Follow-up Required",
   "AR Status", "Outcome"]

/-- The three columns `analyze_claim_data` drops missing values on. -/
def keyClaimCols : List String :=
  ["Insurance Type", "Claim Status", "Billed Amount"]

/-- The fatal message `main` prints when the insurance schema is wrong. -/
def policyErrMsg : String :=
  "Error: The insurance dataset does not have the expected columns."

/-- `main`'s handling of the parsed insurance dataframe: abort with a
message unless all seven required columns are present, then `dropna()`. -/
def loadPolicy (t : Table) : Except String Table :=
  if requiredPolicyCols.all (fun c => t.headers.contains c) then .ok (dropnaAll t)
  else .error policyErrMsg

/-- Whether `analyze_claim_data` prints its non-fatal column warning:
true iff some expected column is absent. -/
def claimsWarn (t : Table) : Bool :=
  !(expectedClaimCols.all (fun c => t.headers.contains c))

/-- The key columns absent from the claims table — the columns pandas'
`dropna(subset=...)` would raise `KeyError` on. -/
def missingKeyCols (t : Table) : List String :=
  keyClaimCols.filter (fun c => !(t.headers.contains c))

/-- The loading/cleaning prefix of `analyze_claim_data`: record whether
the column warning fires, then `dropna(subset=keyClaimCols)`. When a key
column is absent the pandas call raises `KeyError` (uncaught in the
script), modelled as `.error` carrying the missing columns. -/
def prepClaims (t : Table) : Except (List String) (Bool × Table) :=
  if missingKeyCols t = [] then .ok (claimsWarn t, dropnaSubset t keyClaimCols)
  else .error (missingKeyCols t)

/-- Observable steps of `main`, in execution order. -/
inductive Act where
  | fileErr (name : String)
  | loadErr (name : String)
  | schemaErr
  | insuranceAnalysis
  | claimsAnalysis
  | complete
deriving DecidableEq

/-- The step sequence of `main`, parametrised by the environment: whether
each input file exists and, if parsing is reached, the parsed table
(`none` models a `read_csv` exception). Mirrors the early returns of the
script: both existence checks precede every load and analysis step. -/
def mainTrace (insExists claimsExists : Bool) (insParse claimsParse : Option Table) :
    List Act :=
  if !insExists then [.fileErr "insurance.csv"]
  else if !claimsExists then [.fileErr "claim_data.csv"]
  else
    match insParse with
    | none => [.loadErr "insurance.csv"]
    | some t =>
      match loadPolicy t with
      | .error _ => [.schemaErr]
      | .ok _ =>
        .insuranceAnalysis ::
          (match claimsParse with
           | none => [.loadErr "claim_data.csv"]
           | some _ => [.claimsAnalysis, .complete])

/-- Build a claim row with a present claim id. -/
def mkClaim (id itype status : String) (amt : ℚ) : ClaimRecord :=
  ⟨some id, itype, status, amt⟩

/-- Sample claim set: 10 Commercial rows of which 3 denied, 5 Medicare
rows of which none denied. -/
def sampleClaims : List ClaimRecord :=
  [mkClaim "c1" "Commercial" "Denied" 300,
   mkClaim "c2" "Commercial" "Denied" 300,
   mkClaim "c3" "Commercial" "Denied" 300,
   mkClaim "c4" "Commercial" "Paid" 100,
   mkClaim "c5" "Commercial" "Paid" 100,
   mkClaim "c6" "Commercial" "Paid" 100,
   mkClaim "c7" "Commercial" "Paid" 100,
   mkClaim "c8" "Commercial" "Paid" 100,
   mkClaim "c9" "Commercial" "Paid" 100,
   mkClaim "c10" "Commercial" "Paid" 100,
   mkClaim "m1" "Medicare" "Paid" 150,
   mkClaim "m2" "Medicare" "Paid" 150,
   mkClaim "m3" "Medicare" "Paid" 150,
   mkClaim "m4" "Medicare" "Paid" 150,
   mkClaim "m5" "Medicare" "Paid" 150]

/-- Sample claim set whose insurance types all lie outside
`allowedClaimTypes`. -/
def sampleOtherClaims : List ClaimRecord :=
  [mkClaim "x1" "Medicaid" "Denied" 50, mkClaim "x2" "Tricare" "Paid" 75]

/-- Two surviving Commercial rows, the denied one with a missing
`Claim ID` (dropna does not protect that column): pandas counts 0
denied of 1, not 1 denied of 2. -/
def mixedIdClaims : List ClaimRecord :=
  [⟨none, "Commercial", "Denied", 100⟩,
   ⟨some "k2", "Commercial", "Paid", 100⟩]

/-- The three-row policy dataset of the spec's end-to-end example. -/
def samplePolicies : List PolicyRecord :=
  [⟨30, "female", 22, 0, "yes", "southwest", 20000⟩,
   ⟨40, "male", 27, 1, "no", "northeast", 5000⟩,
   ⟨50, "female", 31, 2, "yes", "southeast", 30000⟩]

/-- A claims table whose schema lacks the expected column
`Insurance Type` (but has the other two key columns). -/
def badClaimTable : Table :=
  ⟨["Claim ID", "Claim Status", "Billed Amount"],
   [[some "1", some "Denied", some "100"]]⟩

/-! ## List helper lemmas -/

theorem mem_uniqAux (l : List String) :
    ∀ (seen : List String) (a : String), a ∈ uniqAux seen l ↔ a ∈ l ∧ a ∉ seen := by
  induction l with
  | nil => intro seen a; simp [uniqAux]
  | cons x xs ih =>
    intro seen a
    rw [uniqAux]
    split_ifs with hx
    · rw [ih]
      constructor
      · exact fun h => ⟨List.mem_cons_of_mem _ h.1, h.2⟩
      · rintro ⟨h1, h2⟩
        rcases List.mem_cons.mp h1 with rfl | h1'
        · exact absurd hx h2
        · exact ⟨h1', h2⟩
    · constructor
      · intro h
        rcases List.mem_cons.mp h with rfl | h'
        · exact ⟨List.mem_cons_self _ _, hx⟩
        · obtain ⟨h1, h2⟩ := (ih _ _).mp h'
          exact ⟨List.mem_cons_of_mem _ h1, fun hs => h2 (List.mem_cons_of_mem _ hs)⟩
      · rintro ⟨h1, h2⟩
        rcases List.mem_cons.mp h1 with rfl | h1'
        · exact List.mem_cons_self _ _
        · by_cases hax : a = x
          · exact hax ▸ List.mem_cons_self _ _
          · refine List.mem_cons_of_mem _ ((ih _ _).mpr ⟨h1', fun hs => ?_⟩)
            exact (List.mem_cons.mp hs).elim hax h2

theorem nodup_uniqAux (l : List String) : ∀ seen, (uniqAux seen l).Nodup := by
  induction l with
  | nil => intro _; simp [uniqAux]
  | cons x xs ih =>
    intro seen
    by_cases hx : x ∈ seen
    · simpa [uniqAux, hx] using ih seen
    · simp only [uniqAux, if_neg hx, List.nodup_cons]
      refine ⟨fun hmem => ?_, ih _⟩
      exact ((mem_uniqAux xs (x :: seen) x).mp hmem).2 (List.mem_cons_self x seen)

theorem mem_uniq (l : List String) (a : String) : a ∈ uniq l ↔ a ∈ l := by
  simp [uniq, mem_uniqAux]

theorem nodup_uniq (l : List String) : (uniq l).Nodup :=
  nodup_uniqAux l []

theorem lookup_keyMap_of_mem {β : Type} (f : String → β) :
    ∀ (ks : List String), ks.Nodup → ∀ k ∈ ks,
      (ks.map (fun g => (g, f g))).lookup k = some (f k) := by
  intro ks
  induction ks with
  | nil => simp
  | cons x xs ih =>
    intro hnd k hk
    rcases List.mem_cons.mp hk with rfl | hk'
    · simp [List.lookup]
    · have hkx : k ≠ x := fun h => (List.nodup_cons.mp hnd).1 (h ▸ hk')
      have hbeq : (k == x) = false := by
        cases h : k == x
        · rfl
        · exact absurd (beq_iff_eq.mp h) hkx
      simpa [List.lookup, hbeq] using ih (List.nodup_cons.mp hnd).2 k hk'

theorem lookup_keyMap_of_not_mem {β : Type} (f : String → β) :
    ∀ (ks : List String) (k : String), k ∉ ks →
      (ks.map (fun g => (g, f g))).lookup k = none := by
  intro ks
  induction ks with
  | nil => simp
  | cons x xs ih =>
    intro k hk
    have hkx : k ≠ x := fun h => hk (h ▸ List.mem_cons_self x xs)
    have hk' : k ∉ xs := fun h => hk (List.mem_cons_of_mem _ h)
    have hbeq : (k == x) = false := by
      cases h : k == x
      · rfl
      · exact absurd (beq_iff_eq.mp h) hkx
    simpa [List.lookup, hbeq] using ih k hk'

theorem length_filter_add_length_filter_not (p : α → Bool) (l : List α) :
    (l.filter p).length + (l.filter (fun a => !(p a))).length = l.length := by
  induction l with
  | nil => simp
  | cons x xs ih => cases h : p x <;> simp [List.filter_cons, h, ← ih] <;> omega

/-! ## Sum and scatter lemmas -/

theorem lsum_nil (f : α → ℚ) : lsum f ([] : List α) = 0 := rfl

theorem lsum_cons (f : α → ℚ) (x : α) (l : List α) :
    lsum f (x :: l) = f x + lsum f l := by
  simp [lsum]

theorem lsum_congr {f g : α → ℚ} {l : List α} (h : ∀ a ∈ l, f a = g a) :
    lsum f l = lsum g l := by
  induction l with
  | nil => rfl
  | cons x xs ih =>
    rw [lsum_cons, lsum_cons, h x (List.mem_cons_self x xs),
      ih (fun a ha => h a (List.mem_cons_of_mem _ ha))]

theorem lsum_const (c : ℚ) (l : List α) : lsum (fun _ => c) l = (l.length : ℚ) * c := by
  induction l with
  | nil => simp [lsum_nil]
  | cons x xs ih => rw [lsum_cons, ih, List.length_cons]; push_cast; ring

theorem lsum_quad (c₁ c₂ c₃ : ℚ) (f : α → ℚ) (l : List α) :
    lsum (fun a => c₁ * (f a * f a) + c₂ * f a + c₃) l =
      c₁ * lsum (fun a => f a * f a) l + c₂ * lsum f l + (l.length : ℚ) * c₃ := by
  induction l with
  | nil => simp [lsum_nil]
  | cons x xs ih => rw [lsum_cons, lsum_cons, lsum_cons, ih, List.length_cons]; push_cast; ring

theorem lsum_nonneg {f : α → ℚ} {l : List α} (h : ∀ a ∈ l, 0 ≤ f a) : 0 ≤ lsum f l := by
  induction l with
  | nil => simp [lsum_nil]
  | cons x xs ih =>
    rw [lsum_cons]
    exact add_nonneg (h x (List.mem_cons_self x xs))
      (ih (fun a ha => h a (List.mem_cons_of_mem _ ha)))

theorem eq_zero_of_lsum_eq_zero {f : α → ℚ} {l : List α} (h : ∀ a ∈ l, 0 ≤ f a)
    (hz : lsum f l = 0) : ∀ a ∈ l, f a = 0 := by
  induction l with
  | nil => simp
  | cons x xs ih =>
    rw [lsum_cons] at hz
    have hx := h x (List.mem_cons_self x xs)
    have ht : ∀ a ∈ xs, 0 ≤ f a := fun a ha => h a (List.mem_cons_of_mem _ ha)
    have hxz : f x = 0 ∧ lsum f xs = 0 := by
      constructor <;> nlinarith [lsum_nonneg ht]
    intro a ha
    rcases List.mem_cons.mp ha with rfl | ha'
    · exact hxz.1
    · exact ih ht hxz.2 a ha'

theorem scatter_comm (f g : α → ℚ) (l : List α) : scatter f g l = scatter g f l := by
  unfold scatter
  rw [lsum_congr (fun a _ => mul_comm (f a) (g a))]
  ring

theorem scatter_self_key (f : α → ℚ) (l : List α) :
    (l.length : ℚ) * scatter f f l =
      lsum (fun a => ((l.length : ℚ) * f a - lsum f l) ^ 2) l := by
  have h : ∀ a ∈ l, ((l.length : ℚ) * f a - lsum f l) ^ 2 =
      ((l.length : ℚ) ^ 2) * (f a * f a) +
        (-(2 * (l.length : ℚ) * lsum f l)) * f a + (lsum f l) ^ 2 :=
    fun a _ => by ring
  rw [lsum_congr h, lsum_quad]
  unfold scatter
  ring

theorem scatter_self_eq_zero_iff (f : α → ℚ) (l : List α) :
    scatter f f l = 0 ↔ ∀ a ∈ l, ∀ b ∈ l, f a = f b := by
  cases l with
  | nil => simp [scatter, lsum_nil]
  | cons x xs =>
    have hn : (0 : ℚ) < ((x :: xs).length : ℚ) := by
      have : 0 < (x :: xs).length := Nat.succ_pos _
      exact_mod_cast this
    constructor
    · intro h0 a ha b hb
      have key := scatter_self_key f (x :: xs)
      rw [h0, mul_zero] at key
      have hall := eq_zero_of_lsum_eq_zero (fun a _ => sq_nonneg _) key.symm
      have hzero : ∀ c ∈ x :: xs, ((x :: xs).length : ℚ) * f c = lsum f (x :: xs) := by
        intro c hc
        have := hall c hc
        have h2 : ((x :: xs).length : ℚ) * f c - lsum f (x :: xs) = 0 := by
          exact pow_eq_zero_iff (n := 2) (by norm_num) |>.mp this
        linarith
      have := (hzero a ha).trans (hzero b hb).symm
      exact mul_left_cancel₀ hn.ne' this
    · intro hconst
      have hx : ∀ a ∈ x :: xs, f a = f x :=
        fun a ha => hconst a ha x (List.mem_cons_self x xs)
      have h1 : lsum f (x :: xs) = ((x :: xs).length : ℚ) * f x := by
        rw [lsum_congr hx, lsum_const]
      have h2 : lsum (fun a => f a * f a) (x :: xs) =
          ((x :: xs).length : ℚ) * (f x * f x) := by
        rw [lsum_congr (fun a ha => by rw [hx a ha]), lsum_const]
      unfold scatter
      rw [h1, h2]
      ring

/-! ## Claim theorems -/

/-- C2: `categorize_bmi` returns Underweight iff `b < 18.5`, Normal iff
`18.5 ≤ b < 25`, Overweight iff `25 ≤ b < 30`, Obese iff `b ≥ 30`
(inclusive-low / exclusive-high boundaries), with the six boundary
examples `17.9 ↦ Underweight`, `18.5 ↦ Normal`, `24.99 ↦ Normal`,
`25.0 ↦ Overweight`, `29.99 ↦ Overweight`, `30.0 ↦ Obese`. -/
theorem c2_categorize_bmi_boundaries :
    (∀ b : ℚ,
      (categorize_bmi b = "Underweight" ↔ b < 18.5) ∧
      (categorize_bmi b = "Normal" ↔ 18.5 ≤ b ∧ b < 25) ∧
      (categorize_bmi b = "Overweight" ↔ 25 ≤ b ∧ b < 30) ∧
      (categorize_bmi b = "Obese" ↔ 30 ≤ b)) ∧
    categorize_bmi 17.9 = "Underweight" ∧ categorize_bmi 18.5 = "Normal" ∧
    categorize_bmi 24.99 = "Normal" ∧ categorize_bmi 25.0 = "Overweight" ∧
    categorize_bmi 29.99 = "Overweight" ∧ categorize_bmi 30.0 = "Obese" := by
  have hU : ∀ b : ℚ, categorize_bmi b = "Underweight" ↔ b < 18.5 := by
    intro b
    unfold categorize_bmi
    split_ifs with h1 h2 h3
    · exact iff_of_true rfl h1
    · exact iff_of_false (by decide) h1
    · exact iff_of_false (by decide) h1
    · exact iff_of_false (by decide) h1
  have hN : ∀ b : ℚ, categorize_bmi b = "Normal" ↔ 18.5 ≤ b ∧ b < 25 := by
    intro b
    unfold categorize_bmi
    split_ifs with h1 h2 h3
    · exact iff_of_false (by decide) (fun hc => absurd hc.1 (not_le.mpr h1))
    · exact iff_of_true rfl ⟨not_lt.mp h1, h2⟩
    · exact iff_of_false (by decide) (fun hc => h2 hc.2)
    · exact iff_of_false (by decide) (fun hc => h2 hc.2)
  have hO : ∀ b : ℚ, categorize_bmi b = "Overweight" ↔ 25 ≤ b ∧ b < 30 := by
    intro b
    unfold categorize_bmi
    split_ifs with h1 h2 h3
    · exact iff_of_false (by decide) (fun hc => by linarith [hc.1])
    · exact iff_of_false (by decide) (fun hc => absurd hc.1 (not_le.mpr h2))
    · exact iff_of_true rfl ⟨not_lt.mp h2, h3⟩
    · exact iff_of_false (by decide) (fun hc => h3 hc.2)
  have hOb : ∀ b : ℚ, categorize_bmi b = "Obese" ↔ 30 ≤ b := by
    intro b
    unfold categorize_bmi
    split_ifs with h1 h2 h3
    · exact iff_of_false (by decide) (fun hc => by linarith)
    · exact iff_of_false (by decide) (fun hc => by linarith)
    · exact iff_of_false (by decide) (fun hc => absurd hc (not_le.mpr h3))
    · exact iff_of_true rfl (not_lt.mp h3)
  refine ⟨fun b => ⟨hU b, hN b, hO b, hOb b⟩, ?_, ?_, ?_, ?_, ?_, ?_⟩ <;>
    norm_num [categorize_bmi]

/-- C5: on a claim set whose insurance types all lie outside
the allowed set Commercial/Medicare, the denial-rate computation is total
and returns the empty mapping. -/
theorem c5_denial_rate_empty (rs : List ClaimRecord)
    (h : ∀ r ∈ rs, r.insurance_type ∉ allowedClaimTypes) :
    denialRateByType allowedClaimTypes rs = [] := by
  have hf : filteredClaims allowedClaimTypes rs = [] := by
    rw [filteredClaims, List.filter_eq_nil_iff]
    intro r hr
    simpa using h r hr
  rw [denialRateByType, hf]
  simp [uniq, uniqAux]

/-- C5 witness: a concrete two-row claim set with types Medicaid and
Tricare only, on which the computation returns the empty mapping. -/
theorem c5_denial_rate_empty_witness :
    (∀ r ∈ sampleOtherClaims, r.insurance_type ∉ allowedClaimTypes) ∧
      denialRateByType allowedClaimTypes sampleOtherClaims = [] :=
  ⟨by decide, c5_denial_rate_empty sampleOtherClaims (by decide)⟩

/-- C7: the correlation computation is symmetric in its two columns: the
pair representing `denied.corr(billed)` equals the pair representing
`billed.corr(denied)` (Pearson numerator and squared denominator are both
symmetric). -/
theorem c7_corr_symm {α : Type} (f g : α → ℚ) (l : List α) :
    corrRep f g l = corrRep g f l := by
  by_cases hf : scatter f f l = 0 <;> by_cases hg : scatter g g l = 0 <;>
    simp [corrRep, hf, hg, scatter_comm f g, mul_comm]

/-- C3: `meanByGroup` maps each group key present in the data to the
arithmetic mean of the value field over that group, has no entry for a
key not present (zero rows), maps a single-row group to that row's value
exactly, and on the three-row smoker/charges example yields
yes ↦ 25000 and no ↦ 5000. -/
theorem c3_mean_by_group :
    (∀ (α : Type) (key : α → String) (val : α → ℚ) (rs : List α) (g : String),
      g ∈ rs.map key →
        (meanByGroup key val rs).lookup g =
          some (((groupRows key g rs).map val).sum / ((groupRows key g rs).length : ℚ))) ∧
    (∀ (α : Type) (key : α → String) (val : α → ℚ) (rs : List α) (g : String),
      g ∉ rs.map key → (meanByGroup key val rs).lookup g = none) ∧
    (∀ (α : Type) (key : α → String) (val : α → ℚ) (rs : List α) (g : String) (r : α),
      groupRows key g rs = [r] → (meanByGroup key val rs).lookup g = some (val r)) ∧
    (meanByGroup (fun r => r.smoker) (fun r => r.charges) samplePolicies).lookup "yes" =
      some 25000 ∧
    (meanByGroup (fun r => r.smoker) (fun r => r.charges) samplePolicies).lookup "no" =
      some 5000 := by
  have hmem : ∀ (α : Type) (key : α → String) (val : α → ℚ) (rs : List α) (g : String),
      g ∈ rs.map key →
        (meanByGroup key val rs).lookup g =
          some (((groupRows key g rs).map val).sum / ((groupRows key g rs).length : ℚ)) := by
    intro α key val rs g hg
    exact lookup_keyMap_of_mem _ (uniq (rs.map key)) (nodup_uniq _) g
      ((mem_uniq _ _).mpr hg)
  refine ⟨hmem, ?_, ?_, ?_, ?_⟩
  · intro α key val rs g hg
    exact lookup_keyMap_of_not_mem _ (uniq (rs.map key)) g
      (fun h => hg ((mem_uniq _ _).mp h))
  · intro α key val rs g r hgr
    have hr : r ∈ groupRows key g rs := hgr ▸ List.mem_singleton_self r
    have hr' := List.mem_filter.mp hr
    have hkey : key r = g := beq_iff_eq.mp hr'.2
    have hg : g ∈ rs.map key := List.mem_map.mpr ⟨r, hr'.1, hkey⟩
    rw [hmem α key val rs g hg, hgr]
    norm_num
  · norm_num +decide [meanByGroup, uniq, uniqAux, groupRows, samplePolicies, List.lookup]
  · norm_num +decide [meanByGroup, uniq, uniqAux, groupRows, samplePolicies, List.lookup]

/-- C3 witness: the single-row clause applied to the "no" group of the
sample policies, whose unique row has charges 5000. -/
theorem c3_mean_by_group_witness :
    groupRows (fun r : PolicyRecord => r.smoker) "no" samplePolicies =
      [⟨40, "male", 27, 1, "no", "northeast", 5000⟩] ∧
    (meanByGroup (fun r : PolicyRecord => r.smoker) (fun r => r.charges)
        samplePolicies).lookup "no" = some 5000 :=
  ⟨by decide, c3_mean_by_group.2.2.1 PolicyRecord (fun r => r.smoker) (fun r => r.charges)
    samplePolicies "no" ⟨40, "male", 27, 1, "no", "northeast", 5000⟩ (by decide)⟩

/-- C1 counterexample: two surviving Commercial rows, the denied one
with a missing `Claim ID`. The code counts non-null ids (0 denied of 1)
and reports 0, while the claim's rows-based formula gives
100·1/2 = 50 — so the mapping differs from the claimed value at this
input. -/
theorem c1_denial_rate_counterexample :
    (denialRateByType allowedClaimTypes mixedIdClaims).lookup "Commercial" = some 0 ∧
    100 * (((filteredClaims allowedClaimTypes mixedIdClaims).filter
        (fun r => r.claim_status == "Denied")).length : ℚ) /
      ((filteredClaims allowedClaimTypes mixedIdClaims).length : ℚ) = 50 ∧
    (denialRateByType allowedClaimTypes mixedIdClaims).lookup "Commercial" ≠
      some (100 * (((filteredClaims allowedClaimTypes mixedIdClaims).filter
          (fun r => r.claim_status == "Denied")).length : ℚ) /
        ((filteredClaims allowedClaimTypes mixedIdClaims).length : ℚ)) := by
  refine ⟨?_, ?_, ?_⟩ <;>
    norm_num +decide [denialRateByType, uniq, uniqAux, filteredClaims, mixedIdClaims,
      deniedByType, totalByType, groupRows, List.lookup]

/-- C1 (amended): for each insurance type present in the claims
restricted to the allowed types, the reported rate is 100 times the
count of its denied rows with a non-null claim id divided by the count
of its rows with a non-null claim id (pandas `['Claim ID'].count()`); a
present type with zero counted denied rows maps to 0 (including the
0/0 case of a type whose rows all lack ids); when every row carries a
claim id this is exactly the rows-based formula of the original claim;
the 10-Commercial (3 denied) / 5-Medicare (0 denied) all-ids sample
maps Commercial to 30 and Medicare to 0. -/
theorem c1_denial_rate_by_type :
    (∀ (allowed : List String) (rs : List ClaimRecord) (t : String),
      t ∈ (filteredClaims allowed rs).map (fun r => r.insurance_type) →
        (denialRateByType allowed rs).lookup t =
          some (100 * (deniedByType allowed rs t : ℚ) / (totalByType allowed rs t : ℚ))) ∧
    (∀ (allowed : List String) (rs : List ClaimRecord) (t : String),
      t ∈ (filteredClaims allowed rs).map (fun r => r.insurance_type) →
      deniedByType allowed rs t = 0 →
        (denialRateByType allowed rs).lookup t = some 0) ∧
    (∀ (allowed : List String) (rs : List ClaimRecord) (t : String),
      (∀ r ∈ rs, r.claim_id.isSome = true) →
      t ∈ (filteredClaims allowed rs).map (fun r => r.insurance_type) →
        (denialRateByType allowed rs).lookup t =
          some (100 * (((groupRows (fun r => r.insurance_type) t
              (filteredClaims allowed rs)).filter
              (fun r => r.claim_status == "Denied")).length : ℚ) /
            ((groupRows (fun r => r.insurance_type) t
              (filteredClaims allowed rs)).length : ℚ))) ∧
    (denialRateByType allowedClaimTypes sampleClaims).lookup "Commercial" = some 30 ∧
    (denialRateByType allowedClaimTypes sampleClaims).lookup "Medicare" = some 0 := by
  have hmem : ∀ (allowed : List String) (rs : List ClaimRecord) (t : String),
      t ∈ (filteredClaims allowed rs).map (fun r => r.insurance_type) →
        (denialRateByType allowed rs).lookup t =
          some (100 * (deniedByType allowed rs t : ℚ) / (totalByType allowed rs t : ℚ)) := by
    intro allowed rs t ht
    have := lookup_keyMap_of_mem
      (fun t => (deniedByType allowed rs t : ℚ) / (totalByType allowed rs t : ℚ) * 100)
      (uniq ((filteredClaims allowed rs).map (fun r => r.insurance_type)))
      (nodup_uniq _) t ((mem_uniq _ _).mpr ht)
    rw [denialRateByType, this]
    congr 1
    ring
  refine ⟨hmem, ?_, ?_, ?_, ?_⟩
  · intro allowed rs t ht hz
    rw [hmem allowed rs t ht, hz]
    norm_num
  · intro allowed rs t hids ht
    have hsub : ∀ r ∈ groupRows (fun r => r.insurance_type) t (filteredClaims allowed rs),
        r ∈ rs :=
      fun r hr => (List.mem_filter.mp (List.mem_filter.mp hr).1).1
    have htot : totalByType allowed rs t =
        (groupRows (fun r => r.insurance_type) t (filteredClaims allowed rs)).length := by
      rw [totalByType]
      congr 1
      exact List.filter_eq_self.mpr (fun r hr => hids r (hsub r hr))
    have hden : deniedByType allowed rs t =
        ((groupRows (fun r => r.insurance_type) t (filteredClaims allowed rs)).filter
          (fun r => r.claim_status == "Denied")).length := by
      rw [deniedByType]
      congr 1
      exact List.filter_congr (fun r hr => by rw [hids r (hsub r hr), Bool.and_true])
    rw [hmem allowed rs t ht, htot, hden]
  · norm_num +decide [denialRateByType, uniq, uniqAux, filteredClaims, sampleClaims, mkClaim,
      deniedByType, totalByType, groupRows, List.lookup]
  · norm_num +decide [denialRateByType, uniq, uniqAux, filteredClaims, sampleClaims, mkClaim,
      deniedByType, totalByType, groupRows, List.lookup]

/-- C1 witness: the all-ids clause applied to the Medicare type of the
sample claims (5 rows, 0 denied, all ids present), where the non-null-id
counts coincide with the rows-based formula. -/
theorem c1_denial_rate_by_type_witness :
    (∀ r ∈ sampleClaims, r.claim_id.isSome = true) ∧
    (denialRateByType allowedClaimTypes sampleClaims).lookup "Medicare" =
      some (100 * (((groupRows (fun r => r.insurance_type) "Medicare"
          (filteredClaims allowedClaimTypes sampleClaims)).filter
          (fun r => r.claim_status == "Denied")).length : ℚ) /
        ((groupRows (fun r => r.insurance_type) "Medicare"
          (filteredClaims allowedClaimTypes sampleClaims)).length : ℚ)) :=
  ⟨by decide, c1_denial_rate_by_type.2.2.1 allowedClaimTypes sampleClaims "Medicare"
    (by decide) (by decide)⟩

/-- C4: the threshold split puts every row in exactly one of the two
buckets (`> threshold` and `≤ threshold`), the two bucket sizes sum to
the total row count, and each nonempty bucket's reported value is the
mean of the 0/1 boolean field over the bucket as a percentage. -/
theorem c4_threshold_split {α : Type} (numf : α → ℚ) (threshold : ℚ) (boolf : α → Bool)
    (rs : List α) :
    (highBucket numf threshold rs).length + (lowBucket numf threshold rs).length =
      rs.length ∧
    (∀ r ∈ rs,
      (r ∈ highBucket numf threshold rs ↔ threshold < numf r) ∧
      (r ∈ lowBucket numf threshold rs ↔ numf r ≤ threshold)) ∧
    (highBucket numf threshold rs ≠ [] →
      (thresholdSplitRate numf threshold boolf rs).1 =
        some ((((highBucket numf threshold rs).filter boolf).length : ℚ) /
          ((highBucket numf threshold rs).length : ℚ) * 100)) ∧
    (lowBucket numf threshold rs ≠ [] →
      (thresholdSplitRate numf threshold boolf rs).2 =
        some ((((lowBucket numf threshold rs).filter boolf).length : ℚ) /
          ((lowBucket numf threshold rs).length : ℚ) * 100)) := by
  refine ⟨length_filter_add_length_filter_not _ rs, ?_, ?_, ?_⟩
  · intro r hr
    constructor
    · rw [highBucket, List.mem_filter]
      simp [hr]
    · rw [lowBucket, List.mem_filter]
      simp [hr, not_lt]
  · intro hne
    have hfst : (thresholdSplitRate numf threshold boolf rs).1 =
        bucketRate boolf (highBucket numf threshold rs) := rfl
    rw [hfst, bucketRate, if_neg (by simpa [List.isEmpty_iff] using hne)]
  · intro hne
    have hsnd : (thresholdSplitRate numf threshold boolf rs).2 =
        bucketRate boolf (lowBucket numf threshold rs) := rfl
    rw [hsnd, bucketRate, if_neg (by simpa [List.isEmpty_iff] using hne)]

/-- C4 witness: on the sample claims with threshold 200, bucket sizes
3 and 12 sum to 15 and the high-bucket rate evaluates via the theorem. -/
theorem c4_threshold_split_witness :
    (highBucket (fun r : ClaimRecord => r.billed_amount) 200 sampleClaims).length +
      (lowBucket (fun r : ClaimRecord => r.billed_amount) 200 sampleClaims).length =
      sampleClaims.length ∧
    (thresholdSplitRate (fun r : ClaimRecord => r.billed_amount) 200
        (fun r => r.claim_status == "Denied") sampleClaims).1 =
      some ((((highBucket (fun r : ClaimRecord => r.billed_amount) 200 sampleClaims).filter
          (fun r => r.claim_status == "Denied")).length : ℚ) /
        ((highBucket (fun r : ClaimRecord => r.billed_amount) 200 sampleClaims).length : ℚ) *
        100) :=
  ⟨(c4_threshold_split (fun r : ClaimRecord => r.billed_amount) 200
      (fun r => r.claim_status == "Denied") sampleClaims).1,
   (c4_threshold_split (fun r : ClaimRecord => r.billed_amount) 200
      (fun r => r.claim_status == "Denied") sampleClaims).2.2.1 (by decide)⟩

/-- C6: the correlation computation is total; it is undefined (`none`,
pandas NaN) exactly when one of the two columns has zero variance, i.e.
is constant over the rows, and otherwise yields the exact Pearson data
`(Sxy, Sxx·Syy)` representing `Sxy / √(Sxx·Syy)`. -/
theorem c6_correlation_zero_variance :
    ∀ (α : Type) (f g : α → ℚ) (l : List α),
      (corrRep f g l = none ↔
        (∀ a ∈ l, ∀ b ∈ l, f a = f b) ∨ (∀ a ∈ l, ∀ b ∈ l, g a = g b)) ∧
      (scatter f f l ≠ 0 → scatter g g l ≠ 0 →
        corrRep f g l = some (scatter f g l, scatter f f l * scatter g g l)) := by
  intro α f g l
  constructor
  · rw [corrRep]
    split_ifs with h
    · refine iff_of_true rfl ?_
      rcases h with h | h
      · exact Or.inl ((scatter_self_eq_zero_iff f l).mp h)
      · exact Or.inr ((scatter_self_eq_zero_iff g l).mp h)
    · refine iff_of_false (by simp) ?_
      rintro (hc | hc)
      · exact h (Or.inl ((scatter_self_eq_zero_iff f l).mpr hc))
      · exact h (Or.inr ((scatter_self_eq_zero_iff g l).mpr hc))
  · intro h1 h2
    rw [corrRep, if_neg (not_or_intro h1 h2)]

/-- C6 witness: on the sample claims both columns (denial indicator and
billed amount) have nonzero variance, and the theorem yields the Pearson
pair. -/
theorem c6_correlation_zero_variance_witness :
    corrRep denied01 (fun r : ClaimRecord => r.billed_amount) sampleClaims =
      some (scatter denied01 (fun r : ClaimRecord => r.billed_amount) sampleClaims,
        scatter denied01 denied01 sampleClaims *
          scatter (fun r : ClaimRecord => r.billed_amount)
            (fun r : ClaimRecord => r.billed_amount) sampleClaims) :=
  (c6_correlation_zero_variance ClaimRecord denied01
      (fun r => r.billed_amount) sampleClaims).2
    (by norm_num +decide [scatter, lsum, sampleClaims, mkClaim, denied01])
    (by norm_num +decide [scatter, lsum, sampleClaims, mkClaim, denied01])

/-- C8 counterexample: a claims table whose schema lacks the expected
field `Insurance Type` (one of the `dropna` subset columns). The claim
as stated predicts a non-fatal warning with the analysis proceeding; the
code instead reaches `dropna(subset=...)` which raises `KeyError`,
modelled as an `error` result. -/
theorem c8_loader_counterexample :
    prepClaims badClaimTable = Except.error ["Insurance Type"] := by
  rfl

/-- C8 (amended): the policy loader aborts with a message when any of
the seven required columns is absent and otherwise keeps exactly the
rows with no missing value in any field; the claims preparation, when
the three key columns are present, records the non-fatal warning flag
(set iff some expected column is absent) and keeps exactly the rows
whose three key cells are present; when a key column is absent it
errors instead of proceeding; a policy schema error aborts the run. -/
theorem c8_loader_amended :
    (∀ t : Table, requiredPolicyCols.all (fun c => t.headers.contains c) = false →
      loadPolicy t = .error policyErrMsg) ∧
    (∀ t : Table, requiredPolicyCols.all (fun c => t.headers.contains c) = true →
      loadPolicy t = .ok (dropnaAll t)) ∧
    (∀ (t : Table) (r : List (Option String)),
      r ∈ (dropnaAll t).rows ↔ r ∈ t.rows ∧ rowComplete r = true) ∧
    (∀ (t : Table) (cp : Option Table) (m : String), loadPolicy t = .error m →
      mainTrace true true (some t) cp = [Act.schemaErr]) ∧
    (∀ t : Table, missingKeyCols t = [] →
      prepClaims t = .ok (claimsWarn t, dropnaSubset t keyClaimCols)) ∧
    (∀ (t : Table) (r : List (Option String)),
      r ∈ (dropnaSubset t keyClaimCols).rows ↔
        r ∈ t.rows ∧ keyClaimCols.all (fun c => (cellAt t r c).isSome) = true) ∧
    (∀ t : Table, missingKeyCols t ≠ [] → prepClaims t = .error (missingKeyCols t)) := by
  refine ⟨?_, ?_, ?_, ?_, ?_, ?_, ?_⟩
  · intro t h
    rw [loadPolicy, if_neg (by rw [h]; exact Bool.false_ne_true)]
  · intro t h
    rw [loadPolicy, if_pos h]
  · intro t r
    exact List.mem_filter
  · intro t cp m h
    simp [mainTrace, h]
  · intro t h
    rw [prepClaims, if_pos h]
  · intro t r
    exact List.mem_filter
  · intro t h
    rw [prepClaims, if_neg h]

/-- C8 witness: the amended key-column clause applied to the table
missing `Insurance Type`, whose preparation errors with the missing
column. -/
theorem c8_loader_amended_witness :
    missingKeyCols badClaimTable ≠ [] ∧
    prepClaims badClaimTable = Except.error (missingKeyCols badClaimTable) :=
  ⟨by decide, c8_loader_amended.2.2.2.2.2.2 badClaimTable (by decide)⟩

/-- C10: when `claim_data.csv` is absent, `main` stops at the second
file-existence check with a message, before any analysis step — the
insurance analysis never appears in the trace, whatever the insurance
file's state. -/
theorem c10_claims_check_precedes_analysis :
    ∀ (insExists : Bool) (insParse claimsParse : Option Table),
      Act.insuranceAnalysis ∉ mainTrace insExists false insParse claimsParse ∧
      (insExists = true →
        mainTrace insExists false insParse claimsParse = [Act.fileErr "claim_data.csv"]) := by
  intro ie ip cp
  cases ie <;> simp [mainTrace]

/-- C10 witness: with the insurance file present and parseable but the
claims file absent, the trace is exactly the claims-file error message. -/
theorem c10_claims_check_precedes_analysis_witness :
    Act.insuranceAnalysis ∉ mainTrace true false (some badClaimTable) none ∧
    mainTrace true false (some badClaimTable) none = [Act.fileErr "claim_data.csv"] :=
  ⟨(c10_claims_check_precedes_analysis true (some badClaimTable) none).1,
   (c10_claims_check_precedes_analysis true (some badClaimTable) none).2 rfl⟩

/-! ## Decimal printer lemmas -/

theorem digitChar_isDigit {n : ℕ} (h : n < 10) : (Nat.digitChar n).isDigit = true := by
  interval_cases n <;> decide

theorem mem_natDigitsAux : ∀ (n : ℕ), ∀ c ∈ natDigitsAux n, c.isDigit = true
  | 0 => by simp [natDigitsAux]
  | m + 1 => by
    intro c hc
    rw [natDigitsAux] at hc
    rcases List.mem_cons.mp hc with rfl | hc'
    · exact digitChar_isDigit (Nat.mod_lt _ (by norm_num))
    · exact mem_natDigitsAux ((m + 1) / 10) c hc'
  termination_by n => n
  decreasing_by exact Nat.div_lt_self (Nat.succ_pos m) (by norm_num)

theorem mem_natDigits (n : ℕ) : ∀ c ∈ natDigits n, c.isDigit = true := by
  intro c hc
  rw [natDigits] at hc
  split_ifs at hc
  · rw [List.mem_singleton] at hc
    subst hc
    decide
  · exact mem_natDigitsAux n c (List.mem_reverse.mp hc)

theorem mem_intDigits (d : ℕ) (q : ℚ) : ∀ c ∈ intDigits d q, c.isDigit = true :=
  fun c hc => mem_natDigits _ c hc

theorem length_fracDigitsOf (d : ℕ) (q : ℚ) : (fracDigitsOf d q).length = d := by
  simp [fracDigitsOf]

theorem mem_fracDigitsOf (d : ℕ) (q : ℚ) : ∀ c ∈ fracDigitsOf d q, c.isDigit = true := by
  intro c hc
  rcases List.mem_map.mp hc with ⟨i, _, rfl⟩
  exact digitChar_isDigit (Nat.mod_lt _ (by norm_num))

theorem chunk3_flatten : ∀ l : List Char, (chunk3 l).flatten = l
  | [] => by simp [chunk3]
  | [a] => by simp [chunk3]
  | [a, b] => by simp [chunk3]
  | a :: b :: c :: rest => by
    rw [chunk3]
    simp [chunk3_flatten rest]

theorem chunk3_sizes : ∀ l : List Char, ∀ g ∈ chunk3 l, 0 < g.length ∧ g.length ≤ 3
  | [] => by simp [chunk3]
  | [a] => by simp [chunk3]
  | [a, b] => by simp [chunk3]
  | a :: b :: c :: rest => by
    intro g hg
    rw [chunk3] at hg
    rcases List.mem_cons.mp hg with rfl | hg'
    · simp
    · exact chunk3_sizes rest g hg'

theorem chunk3_dropLast : ∀ l : List Char, ∀ g ∈ (chunk3 l).dropLast, g.length = 3
  | [] => by simp [chunk3]
  | [a] => by simp [chunk3]
  | [a, b] => by simp [chunk3]
  | a :: b :: c :: rest => by
    intro g hg
    rw [chunk3] at hg
    cases hr : chunk3 rest with
    | nil => rw [hr] at hg; simp at hg
    | cons y ys =>
      rw [hr, List.dropLast_cons_of_ne_nil (List.cons_ne_nil y ys)] at hg
      rcases List.mem_cons.mp hg with rfl | hg'
      · rfl
      · exact chunk3_dropLast rest g (by rw [hr]; exact hg')

theorem mem_joinComma : ∀ (gs : List (List Char)) (c : Char),
    c ∈ joinComma gs → (∃ g ∈ gs, c ∈ g) ∨ c = ','
  | [] => by simp [joinComma]
  | [g] => by
    intro c hc
    rw [joinComma] at hc
    exact Or.inl ⟨g, List.mem_singleton_self g, hc⟩
  | g :: g₂ :: gs => by
    intro c hc
    have hjc : joinComma (g :: g₂ :: gs) = g ++ ',' :: joinComma (g₂ :: gs) := rfl
    rw [hjc] at hc
    rcases List.mem_append.mp hc with h | h
    · exact Or.inl ⟨g, List.mem_cons_self _ _, h⟩
    · rcases List.mem_cons.mp h with rfl | h'
      · exact Or.inr rfl
      · rcases mem_joinComma (g₂ :: gs) c h' with ⟨g', hg', hcg'⟩ | rfl
        · exact Or.inl ⟨g', List.mem_cons_of_mem _ hg', hcg'⟩
        · exact Or.inr rfl

theorem joinComma_filter : ∀ (gs : List (List Char)),
    (∀ g ∈ gs, ∀ c ∈ g, c ≠ ',') →
    (joinComma gs).filter (fun c => !(c == ',')) = gs.flatten
  | [] => by simp [joinComma]
  | [g] => by
    intro h
    rw [joinComma]
    simp only [List.flatten, List.append_nil]
    refine List.filter_eq_self.mpr (fun c hc => ?_)
    simpa using h g (List.mem_singleton_self g) c hc
  | g :: g₂ :: gs => by
    intro h
    have hjc : joinComma (g :: g₂ :: gs) = g ++ ',' :: joinComma (g₂ :: gs) := rfl
    rw [hjc, List.filter_append, List.filter_cons]
    have hg : List.filter (fun c => !(c == ',')) g = g :=
      List.filter_eq_self.mpr (fun c hc => by
        simpa using h g (List.mem_cons_self _ _) c hc)
    have hrec := joinComma_filter (g₂ :: gs)
      (fun g' hg' c hc => h g' (List.mem_cons_of_mem _ hg') c hc)
    simp only [hg, hrec]
    simp [List.flatten]

theorem groupComma_flatten (cs : List Char) :
    (((chunk3 cs.reverse).reverse).map List.reverse).flatten = cs := by
  have h1 := List.reverse_flatten (chunk3 cs.reverse)
  rw [chunk3_flatten, List.reverse_reverse] at h1
  rw [← List.map_reverse] at h1
  exact h1.symm

theorem mem_groupComma (cs : List Char) : ∀ c ∈ groupComma cs, c ∈ cs ∨ c = ',' := by
  intro c hc
  rcases mem_joinComma _ c hc with ⟨g, hg, hcg⟩ | rfl
  · left
    have : c ∈ (((chunk3 cs.reverse).reverse).map List.reverse).flatten :=
      List.mem_flatten.mpr ⟨g, hg, hcg⟩
    rwa [groupComma_flatten] at this
  · right; rfl

theorem groupComma_filter (cs : List Char) (h : ∀ c ∈ cs, c ≠ ',') :
    (groupComma cs).filter (fun c => !(c == ',')) = cs := by
  rw [groupComma, joinComma_filter, groupComma_flatten]
  intro g hg c hc
  have : c ∈ (((chunk3 cs.reverse).reverse).map List.reverse).flatten :=
    List.mem_flatten.mpr ⟨g, hg, hc⟩
  rw [groupComma_flatten] at this
  exact h c this

/-- C9: every report formatter produces a `$`-prefixed, comma-grouped
currency string, a percent string, or a plain fixed string whose
fractional part has exactly 2 digits (currency, percent) or exactly 4
digits (correlation); all characters outside sign, separators and the
single decimal point are decimal digits; dropping the thousands
separators of the currency integer part recovers its plain digits, and
every comma group except the leading one has exactly three digits. -/
theorem c9_report_formatting :
    ∀ q : ℚ,
      (fmtCurrency q).data =
        '$' :: ((signStr q).data ++ groupComma (intDigits 2 q) ++ '.' :: fracDigitsOf 2 q) ∧
      (fmtPercent q).data =
        (signStr q).data ++ intDigits 2 q ++ '.' :: fracDigitsOf 2 q ++ ['%'] ∧
      (fmtCorr q).data =
        (signStr q).data ++ intDigits 4 q ++ '.' :: fracDigitsOf 4 q ∧
      (fracDigitsOf 2 q).length = 2 ∧
      (fracDigitsOf 4 q).length = 4 ∧
      (∀ c ∈ fracDigitsOf 2 q, c.isDigit = true) ∧
      (∀ c ∈ fracDigitsOf 4 q, c.isDigit = true) ∧
      (∀ c ∈ intDigits 2 q, c.isDigit = true) ∧
      (∀ c ∈ groupComma (intDigits 2 q), c.isDigit = true ∨ c = ',') ∧
      (groupComma (intDigits 2 q)).filter (fun c => !(c == ',')) = intDigits 2 q ∧
      (∀ g ∈ chunk3 (intDigits 2 q).reverse, 0 < g.length ∧ g.length ≤ 3) ∧
      (∀ g ∈ (chunk3 (intDigits 2 q).reverse).dropLast, g.length = 3) := by
  intro q
  refine ⟨?_, ?_, ?_, length_fracDigitsOf 2 q, length_fracDigitsOf 4 q,
    mem_fracDigitsOf 2 q, mem_fracDigitsOf 4 q, mem_intDigits 2 q, ?_, ?_,
    chunk3_sizes _, chunk3_dropLast _⟩
  · simp [fmtCurrency, fmtFixedComma, String.data_append]
  · simp [fmtPercent, fmtFixed, String.data_append]
  · simp [fmtCorr, fmtFixed, String.data_append]
  · intro c hc
    rcases mem_groupComma _ c hc with h | rfl
    · exact Or.inl (mem_intDigits 2 q c h)
    · exact Or.inr rfl
  · refine groupComma_filter _ (fun c hc hcomma => ?_)
    have hd := mem_intDigits 2 q c hc
    rw [hcomma] at hd
    exact absurd hd (by decide)

/-- C9 witness: at 1234.5 the two currency decimals are the digits 5 and
0; the digit clause of the theorem applies to the `'5'`. -/
theorem c9_report_formatting_witness :
    Char.isDigit '5' = true ∧ (fracDigitsOf 2 (1234.5 : ℚ)).length = 2 := by
  have hsc : scaled 2 (1234.5 : ℚ) = 123450 := by
    rw [scaled, show |(1234.5 : ℚ)| * 10 ^ 2 = 123450 by
      rw [abs_of_pos (by norm_num)]; norm_num]
    norm_num [roundHalfEven, Int.fract]
    decide
  have hmem : '5' ∈ fracDigitsOf 2 (1234.5 : ℚ) := by
    simp only [fracDigitsOf, hsc]
    decide
  exact ⟨(c9_report_formatting 1234.5).2.2.2.2.2.1 '5' hmem,
    (c9_report_formatting 1234.5).2.2.2.1⟩
